import Mathlib

/-!
Verification of the Eco-Console settlement engine.

This file embeds the core of the repository in Lean 4:
the constant-product AMM quote (src/utils.ts, getAmountOut), the sigmoid
buyback controller (src/utils.ts, calculateBuybackRate), the player ledger
primitives and the one-day settlement pipeline advanceDay
(src/unnamed/part_002), and proves or refutes the specified properties.

Modelling conventions:
- JavaScript numbers are modelled as exact rationals, except the buyback
  sigmoid which needs the real exponential and is modelled over the reals.
  Division by zero is 0 in Lean; every division in the embedded code is
  guarded by the same positivity checks the source performs, except the
  degenerate bot-reward corner noted at settleBotRewards.
- The two sources of randomness inside advanceDay, the execution-order
  shuffle of the intent batch and the per-chest medal draws, are explicit
  inputs: the action list is taken already in its shuffled order, and each
  action carries the pre-drawn total medal count for its chest openings.
- The settlement pipeline calls the buyback controller through a rate
  function parameter, since the sigmoid is real-valued while the ledger is
  embedded over the rationals; every theorem below holds for an arbitrary
  rate function, in particular for the sigmoid of the source.
-/

/-- Configuration constants, mirroring CONFIG of src/types.ts.  The spec
requires these to be tunable, so the embedded operations take the record as
a parameter. -/
structure Config where
  CRAFT_COST : ℚ
  WEALTH_PER_ITEM : ℚ
  WEALTH_SALVAGE_RATE : ℚ
  CHEST_OPEN_COST : ℚ
  MEDAL_MIN : ℚ
  MEDAL_MAX : ℚ
  DAILY_MEME_REWARD : ℚ
  INITIAL_AMM_MEME : ℚ
  INITIAL_AMM_LVMON : ℚ
  INITIAL_PLAYER_LVMON : ℚ

/-- The concrete CONFIG values of src/types.ts. -/
def CONFIG : Config :=
  { CRAFT_COST := 3000
    WEALTH_PER_ITEM := 286
    WEALTH_SALVAGE_RATE := 0.5
    CHEST_OPEN_COST := 100
    MEDAL_MIN := 5
    MEDAL_MAX := 15
    DAILY_MEME_REWARD := 1000000
    INITIAL_AMM_MEME := 1000000
    INITIAL_AMM_LVMON := 2000000
    INITIAL_PLAYER_LVMON := 50000 }

/-- GlobalState of src/types.ts. -/
structure GlobalState where
  day : ℕ
  reservoirLvMON : ℚ
  totalWealth : ℚ
  dailyNewWealth : ℚ
  medalsInPool : ℚ
  totalStakedMeme : ℚ
deriving DecidableEq

/-- AMMState of src/types.ts. -/
structure AMMState where
  reserveMEME : ℚ
  reserveLvMON : ℚ
  lpTokenSupply : ℚ
deriving DecidableEq

/-- PlayerState of src/types.ts. -/
structure PlayerState where
  lvMON : ℚ
  meme : ℚ
  medals : ℚ
  wealth : ℚ
  chests : ℚ
  equipmentCount : ℚ
  investedMedals : ℚ
  stakedMeme : ℚ
  unclaimedPoolReward : ℚ
  unclaimedRedistribution : ℚ
  unclaimedStakingReward : ℚ
deriving DecidableEq

/-- BotState of src/types.ts (the name and personality strings only feed
the UI and the decision prompt, not settlement, and are omitted). -/
structure BotState where
  id : ℕ
  lvMON : ℚ
  meme : ℚ
  stakedMeme : ℚ
  medals : ℚ
  wealth : ℚ
  chests : ℚ
  equipmentCount : ℚ
deriving DecidableEq

/-- BotAction of src/Bot.tsx (part_001).  The medalsWon field is the
pre-drawn sum of the uniform per-chest medal draws that the source samples
with Math.random at lines 352-354 of part_002; it is an explicit input
here so that the day-step is a function. -/
structure BotAction where
  botId : ℕ
  craftCount : ℕ
  openChests : ℕ
  investMedals : Bool
  stakeMemePercent : ℚ
  unstakeMemePercent : ℚ
  sellMemePercent : ℚ
  rationale : String
  medalsWon : ℚ
deriving DecidableEq

/-- DailyLog of src/types.ts, as filled by advanceDay (part_002 lines
489-503). -/
structure DailyLog where
  day : ℕ
  memePrice : ℚ
  reservoirBalance : ℚ
  buybackAmount : ℚ
  buybackMemeAmount : ℚ
  buybackRate : ℚ
  totalWealth : ℚ
  newWealth : ℚ
  stakingApy : ℚ
  botActivity : ℚ
  botRoi : ℚ
  medalsInPool : ℚ
  aiAnalysis : String
deriving DecidableEq

/-- getAmountOut of src/utils.ts lines 22-29: the zero-fee constant-product
quote, returning 0 on non-positive input or reserves. -/
def getAmountOut (amountIn reserveIn reserveOut : ℚ) : ℚ :=
  if amountIn ≤ 0 ∨ reserveIn ≤ 0 ∨ reserveOut ≤ 0 then 0
  else amountIn * reserveOut / (reserveIn + amountIn)

/-- calculateBuybackRate of src/utils.ts lines 34-48: the logistic buyback
controller, over the reals since it uses the exponential. -/
noncomputable def calculateBuybackRate (dailyNewWealth : ℝ) : ℝ :=
  let minRate : ℝ := 0.02
  let maxRate : ℝ := 0.08
  let range := maxRate - minRate
  let midpoint : ℝ := 500000
  let steepness : ℝ := 0.000005
  let sigmoidValue := 1 / (1 + Real.exp (-steepness * (dailyNewWealth - midpoint)))
  minRate + range * sigmoidValue

/-- Named failures of the ledger primitives (spec section 7; the source
reports them through alert strings and leaves the state untouched). -/
inductive ActionError where
  | InsufficientFunds
  | InsufficientInventory
deriving DecidableEq

/-- craftEquipment of part_002 lines 135-143, for a batch of n crafts:
on insufficient funds it is a no-op reporting InsufficientFunds, otherwise
it debits the currency, credits wealth, equipment and bonus chests, routes
half the cost to the reservoir and accumulates the wealth delta into the
global aggregates. -/
def craftEquipment (cfg : Config) (n : ℕ) (p : PlayerState) (g : GlobalState) :
    Option ActionError × PlayerState × GlobalState :=
  let cost := cfg.CRAFT_COST * n
  if p.lvMON < cost then (some ActionError.InsufficientFunds, p, g)
  else
    let wealthGain := cfg.WEALTH_PER_ITEM * n
    let toReservoir := cost * 0.5
    let instantChests : ℚ := ⌊wealthGain / 100⌋
    (none,
     { p with
        lvMON := p.lvMON - cost
        wealth := p.wealth + wealthGain
        equipmentCount := p.equipmentCount + n
        chests := p.chests + instantChests },
     { g with
        totalWealth := g.totalWealth + wealthGain
        dailyNewWealth := g.dailyNewWealth + wealthGain
        reservoirLvMON := g.reservoirLvMON + toReservoir })

/-- sellMeme of part_002 lines 171-178: sells the floor of the given
percentage of the liquid meme balance into the AMM; a zero balance or a
zero floor is a no-op. -/
def sellMeme (p : PlayerState) (amm : AMMState) (sellMemePercent : ℚ) :
    PlayerState × AMMState :=
  if p.meme = 0 then (p, amm)
  else
    let amountIn : ℚ := ⌊p.meme * (sellMemePercent / 100)⌋
    if amountIn ≤ 0 then (p, amm)
    else
      let amountOut := getAmountOut amountIn amm.reserveMEME amm.reserveLvMON
      ({ p with meme := p.meme - amountIn, lvMON := p.lvMON + amountOut },
       { amm with
          reserveMEME := amm.reserveMEME + amountIn
          reserveLvMON := amm.reserveLvMON - amountOut })

/-- Bot craft branch of the execution loop, part_002 lines 318-342. -/
def botCraft (cfg : Config) (a : BotAction) (b : BotState) (g : GlobalState) :
    BotState × GlobalState :=
  if 0 < a.craftCount then
    let cost := (a.craftCount : ℚ) * cfg.CRAFT_COST
    if cost ≤ b.lvMON then
      let wealthGain := (a.craftCount : ℚ) * cfg.WEALTH_PER_ITEM
      let toReservoir := cost * 0.5
      let bonusChests : ℚ := ⌊wealthGain / 100⌋
      ({ b with
          lvMON := b.lvMON - cost
          wealth := b.wealth + wealthGain
          equipmentCount := b.equipmentCount + a.craftCount
          chests := b.chests + bonusChests },
       { g with
          dailyNewWealth := g.dailyNewWealth + wealthGain
          totalWealth := g.totalWealth + wealthGain
          reservoirLvMON := g.reservoirLvMON + toReservoir })
    else (b, g)
  else (b, g)

/-- Bot chest-opening branch, part_002 lines 344-365; medalsWon is the
pre-drawn total of the per-chest draws. -/
def botOpenChests (cfg : Config) (a : BotAction) (b : BotState) (g : GlobalState) :
    BotState × GlobalState :=
  if 0 < a.openChests then
    if (a.openChests : ℚ) ≤ b.chests then
      let cost := (a.openChests : ℚ) * cfg.CHEST_OPEN_COST
      if cost ≤ b.lvMON then
        ({ b with
            lvMON := b.lvMON - cost
            chests := b.chests - a.openChests
            medals := b.medals + a.medalsWon },
         { g with reservoirLvMON := g.reservoirLvMON + cost })
      else (b, g)
    else (b, g)
  else (b, g)

/-- Bot invest branch, part_002 lines 367-377: the held medals are counted
into the generated-medals aggregate; the bot itself is unchanged (medals
stay on the bot until the next settlement). -/
def botInvest (a : BotAction) (b : BotState) (medalsGenerated : ℚ) : ℚ :=
  if a.investMedals ∧ 0 < b.medals then medalsGenerated + b.medals
  else medalsGenerated

/-- Bot unstake branch, part_002 lines 379-390. -/
def botUnstake (a : BotAction) (b : BotState) (g : GlobalState) :
    BotState × GlobalState :=
  if 0 < a.unstakeMemePercent ∧ 0 < b.stakedMeme then
    let amount := b.stakedMeme * a.unstakeMemePercent
    ({ b with stakedMeme := b.stakedMeme - amount, meme := b.meme + amount },
     { g with totalStakedMeme := max 0 (g.totalStakedMeme - amount) })
  else (b, g)

/-- Bot sell branch, part_002 lines 392-408: sells the floor of the given
fraction of the liquid meme into the shared AMM. -/
def botSell (a : BotAction) (b : BotState) (amm : AMMState) :
    BotState × AMMState :=
  if 0 < a.sellMemePercent ∧ 0 < b.meme then
    let amountIn : ℚ := ⌊b.meme * a.sellMemePercent⌋
    if 0 < amountIn then
      let amountOut := getAmountOut amountIn amm.reserveMEME amm.reserveLvMON
      ({ b with meme := b.meme - amountIn, lvMON := b.lvMON + amountOut },
       { amm with
          reserveMEME := amm.reserveMEME + amountIn
          reserveLvMON := amm.reserveLvMON - amountOut })
    else (b, amm)
  else (b, amm)

/-- Bot stake branch, part_002 lines 410-423. -/
def botStake (a : BotAction) (b : BotState) (g : GlobalState) :
    BotState × GlobalState :=
  if 0 < a.stakeMemePercent ∧ 0 < b.meme then
    let amount : ℚ := ⌊b.meme * a.stakeMemePercent⌋
    if 0 < amount then
      ({ b with meme := b.meme - amount, stakedMeme := b.stakedMeme + amount },
       { g with totalStakedMeme := g.totalStakedMeme + amount })
    else (b, g)
  else (b, g)

/-- The mutable state threaded through the sequential bot-execution loop:
the shared global aggregates, the shared AMM, the bot list, and the running
total of medals invested into the next-day pool. -/
structure LoopState where
  global : GlobalState
  amm : AMMState
  bots : List BotState
  medalsGenerated : ℚ
deriving DecidableEq

/-- One iteration of the bot-execution loop, part_002 lines 304-443:
look up the acting bot by id (a missing id is skipped) and run the six
branches in the fixed order craft, open chests, invest, unstake, sell,
stake against the shared state. -/
def execBotAction (cfg : Config) (s : LoopState) (a : BotAction) : LoopState :=
  match s.bots.findIdx? (fun b => b.id = a.botId) with
  | none => s
  | some i =>
    match s.bots[i]? with
    | none => s
    | some b0 =>
      let r1 := botCraft cfg a b0 s.global
      let r2 := botOpenChests cfg a r1.1 r1.2
      let mg1 := botInvest a r2.1 s.medalsGenerated
      let r3 := botUnstake a r2.1 r2.2
      let r4 := botSell a r3.1 s.amm
      let r5 := botStake a r4.1 r3.2
      { global := r5.2, amm := r4.2, bots := s.bots.set i r5.1, medalsGenerated := mg1 }

/-- The morning settlement of the previous-day medal pool for the bots,
part_002 lines 277-287: if any bot holds medals, every bot is credited 90
percent of DAILY_MEME_REWARD times its medal share of the pool, directly
into its liquid meme, and its medals are reset.  When the pool total is 0
while some bot still holds medals the source divides by zero (JavaScript
yields Infinity); in this embedding that division is 0. -/
def settleBotRewards (cfg : Config) (totalMedals : ℚ) (bots : List BotState) :
    List BotState :=
  let yesterdayBotMedals := (bots.map (fun b => b.medals)).sum
  if 0 < yesterdayBotMedals then
    bots.map (fun b =>
      { b with
          meme := b.meme + cfg.DAILY_MEME_REWARD * (b.medals / totalMedals) * 0.9
          medals := 0 })
  else bots

/-- The staking-dividend distribution, part_002 lines 470-482: if anything
is staked, the player books dividend times its stake share into the
unclaimed bucket, and each bot with a positive stake receives a share of
the remainder (dividend minus the player share), proportional to its stake,
directly into liquid meme. -/
def distributeStaking (stakingDividend totalStaked : ℚ)
    (p : PlayerState) (bots : List BotState) : PlayerState × List BotState :=
  if 0 < totalStaked then
    let playerStakingShare := stakingDividend * (p.stakedMeme / totalStaked)
    let p1 := { p with
      unclaimedStakingReward := p.unclaimedStakingReward + playerStakingShare }
    let botStakingTotal := stakingDividend - playerStakingShare
    let bots1 :=
      if 0 < botStakingTotal then
        bots.map (fun b =>
          if 0 < b.stakedMeme then
            { b with meme := b.meme + botStakingTotal * (b.stakedMeme / totalStaked) }
          else b)
      else bots
    (p1, bots1)
  else (p, bots)

/-- The result of one day-step: the committed global, AMM, player and bot
snapshots plus the immutable DailyLog. -/
structure AdvanceResult where
  global : GlobalState
  amm : AMMState
  player : PlayerState
  bots : List BotState
  log : DailyLog
deriving DecidableEq

/-- advanceDay of part_002 lines 213-522, as a pure function of the start
state, the already-shuffled intent batch (the shuffle of line 290 is an
input permutation), and the market-analysis text of the decision provider.
The buyback controller is passed as the rate function parameter; the source
instantiates it with calculateBuybackRate. -/
def advanceDay (cfg : Config) (rate : ℚ → ℚ) (g : GlobalState) (amm : AMMState)
    (p : PlayerState) (bots : List BotState) (actions : List BotAction)
    (analysis : String) : AdvanceResult :=
  let totalMedals := g.medalsInPool
  let playerReward :=
    if 0 < totalMedals then cfg.DAILY_MEME_REWARD * (p.investedMedals / totalMedals)
    else 0
  let botsInvestedTotal :=
    (bots.map (fun b => if 0 < b.medals then b.medals else 0)).sum
  let othersTotalReward :=
    if 0 < totalMedals then cfg.DAILY_MEME_REWARD * (botsInvestedTotal / totalMedals)
    else 0
  let taxRate : ℚ := 0.1
  let playerTax := playerReward * taxRate
  let botTax := othersTotalReward * taxRate
  let playerNetReward := playerReward - playerTax
  let bots1 := settleBotRewards cfg totalMedals bots
  let s1 := actions.foldl (execBotAction cfg) ⟨g, amm, bots1, 0⟩
  let currentBuybackRate := rate s1.global.dailyNewWealth
  let buybackBudget := s1.global.reservoirLvMON * currentBuybackRate
  let doBuy := 0 < buybackBudget
  let actualBuybackAmount := if doBuy then buybackBudget else 0
  let actualMemeBought :=
    if doBuy then getAmountOut buybackBudget s1.amm.reserveLvMON s1.amm.reserveMEME
    else 0
  let amm2 :=
    if doBuy then
      { s1.amm with
          reserveLvMON := s1.amm.reserveLvMON + buybackBudget
          reserveMEME := s1.amm.reserveMEME - actualMemeBought }
    else s1.amm
  let g2 :=
    if doBuy then { s1.global with reservoirLvMON := s1.global.reservoirLvMON - buybackBudget }
    else s1.global
  let stakingDividend := if doBuy then actualMemeBought * 0.1 else 0
  let p1 := { p with unclaimedPoolReward := p.unclaimedPoolReward + playerNetReward }
  let playerWealthShare := p1.wealth / (if g2.totalWealth = 0 then 1 else g2.totalWealth)
  let p2 := { p1 with
    unclaimedRedistribution := p1.unclaimedRedistribution + botTax * playerWealthShare }
  let pb := distributeStaking stakingDividend g2.totalStakedMeme p2 s1.bots
  let newChests : ℚ := ⌊pb.1.wealth / 100⌋
  let p4 := { pb.1 with chests := pb.1.chests + newChests, investedMedals := 0 }
  let log : DailyLog :=
    { day := g2.day
      memePrice := amm2.reserveLvMON / amm2.reserveMEME
      reservoirBalance := g2.reservoirLvMON
      buybackAmount := actualBuybackAmount
      buybackMemeAmount := actualMemeBought
      buybackRate := currentBuybackRate
      totalWealth := g2.totalWealth
      newWealth := g2.dailyNewWealth
      stakingApy :=
        if 0 < g2.totalStakedMeme then stakingDividend * 365 / g2.totalStakedMeme else 0
      botActivity := (actions.length : ℚ) / 10
      botRoi := 0
      medalsInPool := g2.medalsInPool
      aiAnalysis := analysis }
  let g3 := { g2 with
    day := g2.day + 1
    medalsInPool := s1.medalsGenerated
    dailyNewWealth := 0 }
  ⟨g3, amm2, p4, pb.2, log⟩

/-- The token-denominated supply visible to the conservation claim: the
player liquid, staked and unclaimed meme, every bot liquid and staked meme,
and the AMM meme reserve. -/
def memeSupply (p : PlayerState) (bots : List BotState) (amm : AMMState) : ℚ :=
  p.meme + p.stakedMeme + p.unclaimedPoolReward + p.unclaimedRedistribution +
    p.unclaimedStakingReward +
    (bots.map (fun b => b.meme + b.stakedMeme)).sum + amm.reserveMEME

/-- The meme-denominated part of the loop state, preserved exactly by the
bot-execution loop. -/
def loopMemeSum (s : LoopState) : ℚ :=
  (s.bots.map (fun b => b.meme + b.stakedMeme)).sum + s.amm.reserveMEME

/-- The total net pool reward minted to the bots by the morning settlement
(the amounts of settleBotRewards). -/
def botsNetPoolReward (cfg : Config) (totalMedals : ℚ) (bots : List BotState) : ℚ :=
  if 0 < (bots.map (fun b => b.medals)).sum then
    (bots.map (fun b => cfg.DAILY_MEME_REWARD * (b.medals / totalMedals) * 0.9)).sum
  else 0

/-- The total staking dividend actually credited by distributeStaking: the
player share plus every positive-stake bot share of the remainder. -/
def dividendCredited (stakingDividend totalStaked playerStaked : ℚ)
    (bots : List BotState) : ℚ :=
  if 0 < totalStaked then
    let playerStakingShare := stakingDividend * (playerStaked / totalStaked)
    let botStakingTotal := stakingDividend - playerStakingShare
    playerStakingShare +
      (if 0 < botStakingTotal then
        (bots.map (fun b =>
          if 0 < b.stakedMeme then botStakingTotal * (b.stakedMeme / totalStaked)
          else 0)).sum
      else 0)
  else 0

/-- Erases the medal randomness of an action: the medal draws are the only
per-run nondeterminism besides the shuffle. -/
def scrubAction (a : BotAction) : BotAction := { a with medalsWon := 0 }

/-- Erases the held medals of a bot. -/
def scrubBot (b : BotState) : BotState := { b with medals := 0 }

/-- A player with every balance zero, the base point of the concrete
witness states below. -/
def zeroPlayer : PlayerState := ⟨0, 0, 0, 0, 0, 0, 0, 0, 0, 0, 0⟩

/-- A day-1 global state with every aggregate zero. -/
def zeroGlobal : GlobalState := ⟨1, 0, 0, 0, 0, 0⟩

/-- A bot with id 0 and every balance zero. -/
def zeroBot : BotState := ⟨0, 0, 0, 0, 0, 0, 0, 0⟩

/-- The initial AMM pool of src/types.ts. -/
def baseAmm : AMMState := ⟨1000000, 2000000, 1000⟩

/-- Claim C4: the AMM quote returns exactly
amountIn * reserveOut / (reserveIn + amountIn) for positive input and
reserves, returns 0 whenever the input or either reserve is non-positive,
and quotes 1000000/1001 (about 999.000999) for 1000 in against the
1000000 / 1000000 pool. -/
theorem getAmountOut_spec (amountIn reserveIn reserveOut : ℚ)
    (h1 : 0 < amountIn) (h2 : 0 < reserveIn) (h3 : 0 < reserveOut) :
    getAmountOut amountIn reserveIn reserveOut
        = amountIn * reserveOut / (reserveIn + amountIn) ∧
    (∀ a rIn rOut : ℚ, a ≤ 0 ∨ rIn ≤ 0 ∨ rOut ≤ 0 → getAmountOut a rIn rOut = 0) ∧
    getAmountOut 1000 1000000 1000000 = 1000000 / 1001 := by
  refine ⟨?_, ?_, by norm_num [getAmountOut]⟩
  · rw [getAmountOut, if_neg]
    push_neg
    exact ⟨h1, h2, h3⟩
  · intro a rIn rOut h
    rw [getAmountOut, if_pos h]

/-- Witness for C4 at the concrete scenario input. -/
theorem getAmountOut_spec_witness :
    getAmountOut 1000 1000000 1000000 = 1000 * 1000000 / (1000000 + 1000) :=
  (getAmountOut_spec 1000 1000000 1000000 (by norm_num) (by norm_num)
    (by norm_num)).1

/-- Claim C5: applying a swap at the quoted output preserves the reserve
product exactly: increasing the input reserve by amountIn and decreasing
the output reserve by the getAmountOut quote leaves the product unchanged,
for all positive reserves and positive input. -/
theorem constant_product_preserved (amountIn reserveIn reserveOut : ℚ)
    (h1 : 0 < amountIn) (h2 : 0 < reserveIn) (h3 : 0 < reserveOut) :
    (reserveIn + amountIn) *
        (reserveOut - getAmountOut amountIn reserveIn reserveOut)
      = reserveIn * reserveOut := by
  rw [getAmountOut, if_neg (by push_neg; exact ⟨h1, h2, h3⟩)]
  have hd : reserveIn + amountIn ≠ 0 := by positivity
  field_simp
  ring

/-- Witness for C5 at the initial pool of the source. -/
theorem constant_product_preserved_witness :
    ((1000000 : ℚ) + 1000) * (2000000 - getAmountOut 1000 1000000 2000000)
      = 1000000 * 2000000 :=
  constant_product_preserved 1000 1000000 2000000 (by norm_num) (by norm_num)
    (by norm_num)

/-- Claim C9: a quoted swap can never drain a reserve: for positive input
and reserves the quote is strictly below the output reserve, so after the
swap both reserves and the derived price stay strictly positive. -/
theorem swap_cannot_drain (amountIn reserveIn reserveOut : ℚ)
    (h1 : 0 < amountIn) (h2 : 0 < reserveIn) (h3 : 0 < reserveOut) :
    getAmountOut amountIn reserveIn reserveOut < reserveOut ∧
    0 < reserveOut - getAmountOut amountIn reserveIn reserveOut ∧
    0 < reserveIn + amountIn ∧
    0 < (reserveOut - getAmountOut amountIn reserveIn reserveOut) /
          (reserveIn + amountIn) := by
  have hd : (0 : ℚ) < reserveIn + amountIn := by positivity
  have hq : getAmountOut amountIn reserveIn reserveOut < reserveOut := by
    rw [getAmountOut, if_neg (by push_neg; exact ⟨h1, h2, h3⟩)]
    rw [div_lt_iff₀ hd]
    nlinarith
  exact ⟨hq, by linarith, hd, div_pos (by linarith) hd⟩

/-- Witness for C9 at the initial pool of the source. -/
theorem swap_cannot_drain_witness :
    getAmountOut 1000 1000000 2000000 < 2000000 :=
  (swap_cannot_drain 1000 1000000 2000000 (by norm_num) (by norm_num)
    (by norm_num)).1

/-- Claim C3: the craft contract, both for the player primitive and for the
bot branch of the execution loop.  With sufficient funds a batch of n
crafts debits CRAFT_COST times n, credits n times WEALTH_PER_ITEM wealth
and floor(wealthGain/100) bonus chests, routes half the spend to the
reservoir and adds the wealth gain to dailyNewWealth and totalWealth; with
insufficient funds it reports InsufficientFunds and changes nothing. -/
theorem craft_spec (cfg : Config) (n : ℕ) (p : PlayerState) (g : GlobalState)
    (a : BotAction) (b : BotState) (gb : GlobalState) :
    (cfg.CRAFT_COST * n ≤ p.lvMON →
      craftEquipment cfg n p g =
        (none,
         { p with
            lvMON := p.lvMON - cfg.CRAFT_COST * n
            wealth := p.wealth + cfg.WEALTH_PER_ITEM * n
            equipmentCount := p.equipmentCount + n
            chests := p.chests + ⌊cfg.WEALTH_PER_ITEM * n / 100⌋ },
         { g with
            totalWealth := g.totalWealth + cfg.WEALTH_PER_ITEM * n
            dailyNewWealth := g.dailyNewWealth + cfg.WEALTH_PER_ITEM * n
            reservoirLvMON := g.reservoirLvMON + cfg.CRAFT_COST * n * 0.5 })) ∧
    (p.lvMON < cfg.CRAFT_COST * n →
      craftEquipment cfg n p g = (some ActionError.InsufficientFunds, p, g)) ∧
    (0 < a.craftCount → (a.craftCount : ℚ) * cfg.CRAFT_COST ≤ b.lvMON →
      botCraft cfg a b gb =
        ({ b with
            lvMON := b.lvMON - (a.craftCount : ℚ) * cfg.CRAFT_COST
            wealth := b.wealth + (a.craftCount : ℚ) * cfg.WEALTH_PER_ITEM
            equipmentCount := b.equipmentCount + a.craftCount
            chests := b.chests + ⌊(a.craftCount : ℚ) * cfg.WEALTH_PER_ITEM / 100⌋ },
         { gb with
            dailyNewWealth := gb.dailyNewWealth + (a.craftCount : ℚ) * cfg.WEALTH_PER_ITEM
            totalWealth := gb.totalWealth + (a.craftCount : ℚ) * cfg.WEALTH_PER_ITEM
            reservoirLvMON := gb.reservoirLvMON + (a.craftCount : ℚ) * cfg.CRAFT_COST * 0.5 })) ∧
    (0 < a.craftCount → b.lvMON < (a.craftCount : ℚ) * cfg.CRAFT_COST →
      botCraft cfg a b gb = (b, gb)) := by
  refine ⟨?_, ?_, ?_, ?_⟩
  · intro h
    rw [craftEquipment, if_neg (not_lt.mpr h)]
  · intro h
    rw [craftEquipment, if_pos h]
  · intro hn h
    rw [botCraft, if_pos hn, if_pos h]
  · intro hn h
    rw [botCraft, if_pos hn, if_neg (not_le.mpr h)]

/-- Witness for C3: one craft with exactly enough currency succeeds with
the stated balance changes, and a second craft from the resulting empty
balance fails with InsufficientFunds leaving the state unchanged. -/
theorem craft_spec_witness :
    craftEquipment CONFIG 1 { zeroPlayer with lvMON := 3000 } zeroGlobal =
      (none,
       { zeroPlayer with lvMON := 0, wealth := 286, equipmentCount := 1, chests := 2 },
       { zeroGlobal with
          totalWealth := 286
          dailyNewWealth := 286
          reservoirLvMON := 1500 }) ∧
    craftEquipment CONFIG 1 zeroPlayer zeroGlobal =
      (some ActionError.InsufficientFunds, zeroPlayer, zeroGlobal) := by
  constructor
  · have h := (craft_spec CONFIG 1 { zeroPlayer with lvMON := 3000 } zeroGlobal
      ⟨0, 0, 0, false, 0, 0, 0, "", 0⟩ zeroBot zeroGlobal).1
      (by norm_num [CONFIG, zeroPlayer])
    rw [h]
    norm_num [CONFIG, zeroPlayer, zeroGlobal]
  · exact (craft_spec CONFIG 1 zeroPlayer zeroGlobal
      ⟨0, 0, 0, false, 0, 0, 0, "", 0⟩ zeroBot zeroGlobal).2.1
      (by norm_num [CONFIG, zeroPlayer])

/-- Claim C10: selling rounds down to whole tokens.  The player primitive
sells exactly floor(meme * percent/100) and is a no-op whenever that floor
is not positive; the bot sell branch sells exactly floor(meme * ratio) and
is a no-op whenever that floor is not positive (given a non-negative
balance, as every reachable balance is). -/
theorem sell_floor_spec (p : PlayerState) (amm : AMMState) (pct : ℚ)
    (a : BotAction) (b : BotState) (ammb : AMMState) (hb : 0 ≤ b.meme) :
    (⌊p.meme * (pct / 100)⌋ ≤ 0 → sellMeme p amm pct = (p, amm)) ∧
    (0 < ⌊p.meme * (pct / 100)⌋ →
      sellMeme p amm pct =
        ({ p with
            meme := p.meme - (⌊p.meme * (pct / 100)⌋ : ℚ)
            lvMON := p.lvMON + getAmountOut (⌊p.meme * (pct / 100)⌋ : ℚ)
              amm.reserveMEME amm.reserveLvMON },
         { amm with
            reserveMEME := amm.reserveMEME + (⌊p.meme * (pct / 100)⌋ : ℚ)
            reserveLvMON := amm.reserveLvMON - getAmountOut (⌊p.meme * (pct / 100)⌋ : ℚ)
              amm.reserveMEME amm.reserveLvMON })) ∧
    (⌊b.meme * a.sellMemePercent⌋ ≤ 0 → botSell a b ammb = (b, ammb)) ∧
    (0 < ⌊b.meme * a.sellMemePercent⌋ →
      botSell a b ammb =
        ({ b with
            meme := b.meme - (⌊b.meme * a.sellMemePercent⌋ : ℚ)
            lvMON := b.lvMON + getAmountOut (⌊b.meme * a.sellMemePercent⌋ : ℚ)
              ammb.reserveMEME ammb.reserveLvMON },
         { ammb with
            reserveMEME := ammb.reserveMEME + (⌊b.meme * a.sellMemePercent⌋ : ℚ)
            reserveLvMON := ammb.reserveLvMON - getAmountOut (⌊b.meme * a.sellMemePercent⌋ : ℚ)
              ammb.reserveMEME ammb.reserveLvMON })) := by
  refine ⟨?_, ?_, ?_, ?_⟩
  · intro h
    simp only [sellMeme]
    split_ifs with h1 h2
    · rfl
    · rfl
    · exact absurd (show ((⌊p.meme * (pct / 100)⌋ : ℤ) : ℚ) ≤ 0 by exact_mod_cast h) h2
  · intro h
    have hz : p.meme ≠ 0 := by
      intro hz
      rw [hz, zero_mul, Int.floor_zero] at h
      exact lt_irrefl 0 h
    have hq : ¬(((⌊p.meme * (pct / 100)⌋ : ℤ) : ℚ) ≤ 0) := by
      push_neg
      exact_mod_cast h
    simp only [sellMeme]
    rw [if_neg hz, if_neg hq]
  · intro h
    simp only [botSell]
    split_ifs with h1 h2
    · exact absurd (show (0 : ℚ) < ((⌊b.meme * a.sellMemePercent⌋ : ℤ) : ℚ) from h2)
        (by push_neg; exact_mod_cast h)
    · rfl
    · rfl
  · intro h
    have hfl : (0 : ℚ) < b.meme * a.sellMemePercent := by
      by_contra hc
      push_neg at hc
      have h0 : ⌊b.meme * a.sellMemePercent⌋ ≤ 0 := Int.floor_nonpos hc
      omega
    have hmeme : 0 < b.meme := by
      rcases lt_or_eq_of_le hb with h1 | h1
      · exact h1
      · exfalso
        rw [← h1, zero_mul] at hfl
        exact lt_irrefl 0 hfl
    have hpct : 0 < a.sellMemePercent := by
      rcases mul_pos_iff.mp hfl with ⟨_, h2⟩ | ⟨h2, _⟩
      · exact h2
      · exact absurd hmeme (not_lt.mpr h2.le)
    have hq : (0 : ℚ) < ((⌊b.meme * a.sellMemePercent⌋ : ℤ) : ℚ) := by
      exact_mod_cast h
    simp only [botSell]
    rw [if_pos ⟨hpct, hmeme⟩, if_pos hq]

/-- Witness for C10: a fractional balance of one half sold at 100 percent
is a no-op, and a balance of 10 sold at ratio one half sells exactly 5. -/
theorem sell_floor_spec_witness :
    sellMeme { zeroPlayer with meme := 1/2 } baseAmm 100 =
      ({ zeroPlayer with meme := 1/2 }, baseAmm) ∧
    botSell ⟨0, 0, 0, false, 0, 0, 1/2, "", 0⟩ { zeroBot with meme := 10 } baseAmm =
      ({ zeroBot with
          meme := 5
          lvMON := getAmountOut 5 1000000 2000000 },
       { baseAmm with
          reserveMEME := 1000005
          reserveLvMON := 2000000 - getAmountOut 5 1000000 2000000 }) := by
  constructor
  · exact (sell_floor_spec { zeroPlayer with meme := 1/2 } baseAmm 100
      ⟨0, 0, 0, false, 0, 0, 0, "", 0⟩ zeroBot baseAmm (by norm_num [zeroBot])).1
      (by norm_num [zeroPlayer])
  · have h := (sell_floor_spec zeroPlayer baseAmm 0
      ⟨0, 0, 0, false, 0, 0, 1/2, "", 0⟩ { zeroBot with meme := 10 } baseAmm
      (by norm_num [zeroBot])).2.2.2
      (by norm_num [zeroBot])
    rw [h]
    norm_num [zeroBot, baseAmm]

/-- Closed form of the buyback controller, with the range constant
evaluated. -/
theorem rate_eq (x : ℝ) :
    calculateBuybackRate x =
      0.02 + 0.06 * (1 / (1 + Real.exp (-0.000005 * (x - 500000)))) := by
  norm_num [calculateBuybackRate]

/-- Claim C6: the buyback curve stays strictly inside (0.02, 0.08), is
strictly increasing, sits within 0.005 of the minimum rate at input 0, and
tends to the maximum rate 0.08 at positive infinity. -/
theorem calculateBuybackRate_spec :
    (∀ x : ℝ, 0.02 < calculateBuybackRate x ∧ calculateBuybackRate x < 0.08) ∧
    StrictMono calculateBuybackRate ∧
    (0.02 < calculateBuybackRate 0 ∧ calculateBuybackRate 0 < 0.025) ∧
    Filter.Tendsto calculateBuybackRate Filter.atTop (nhds 0.08) := by
  have hbounds : ∀ x : ℝ, 0.02 < calculateBuybackRate x ∧ calculateBuybackRate x < 0.08 := by
    intro x
    rw [rate_eq]
    have he : (0 : ℝ) < Real.exp (-0.000005 * (x - 500000)) := Real.exp_pos _
    have hd : (0 : ℝ) < 1 + Real.exp (-0.000005 * (x - 500000)) := by linarith
    constructor
    · have hpos : (0 : ℝ) < 0.06 * (1 / (1 + Real.exp (-0.000005 * (x - 500000)))) := by
        positivity
      linarith
    · have hlt : 1 / (1 + Real.exp (-0.000005 * (x - 500000))) < 1 := by
        rw [div_lt_one hd]
        linarith
      nlinarith
  have hmono : StrictMono calculateBuybackRate := by
    intro x y hxy
    rw [rate_eq, rate_eq]
    have h1 : Real.exp (-0.000005 * (y - 500000)) < Real.exp (-0.000005 * (x - 500000)) := by
      apply Real.exp_lt_exp.mpr
      nlinarith
    have d2 : (0 : ℝ) < 1 + Real.exp (-0.000005 * (y - 500000)) := by
      have := Real.exp_pos (-0.000005 * (y - 500000))
      linarith
    have h2 : 1 / (1 + Real.exp (-0.000005 * (x - 500000))) <
        1 / (1 + Real.exp (-0.000005 * (y - 500000))) := by
      apply one_div_lt_one_div_of_lt d2
      linarith
    linarith
  have hzero : 0.02 < calculateBuybackRate 0 ∧ calculateBuybackRate 0 < 0.025 := by
    have h25 : (-0.000005 : ℝ) * ((0 : ℝ) - 500000) = 2.5 := by norm_num
    have he11 : (11 : ℝ) < Real.exp 2.5 := by
      have h1 : (2.7182818283 : ℝ) < Real.exp 1 := Real.exp_one_gt_d9
      have h2 : (1.5 : ℝ) ≤ Real.exp 0.5 := by
        have := Real.add_one_le_exp (0.5 : ℝ)
        linarith
      have h3 : Real.exp 2.5 = Real.exp 1 * Real.exp 1 * Real.exp 0.5 := by
        rw [← Real.exp_add, ← Real.exp_add]
        norm_num
      nlinarith [Real.exp_pos 1, Real.exp_pos 0.5]
    have hd : (0 : ℝ) < 1 + Real.exp 2.5 := by
      have := Real.exp_pos (2.5 : ℝ)
      linarith
    constructor
    · exact (hbounds 0).1
    · rw [rate_eq, h25]
      have : (0.06 : ℝ) * (1 / (1 + Real.exp 2.5)) < 0.005 := by
        rw [mul_one_div, div_lt_iff₀ hd]
        linarith
      linarith
  refine ⟨hbounds, hmono, hzero, ?_⟩
  have hlin : Filter.Tendsto (fun x : ℝ => -0.000005 * (x - 500000))
      Filter.atTop Filter.atBot := by
    apply Filter.Tendsto.const_mul_atTop_of_neg (by norm_num)
    have h := Filter.tendsto_atTop_add_const_right Filter.atTop (-500000 : ℝ)
      Filter.tendsto_id
    simpa [sub_eq_add_neg] using h
  have hexp : Filter.Tendsto (fun x : ℝ => Real.exp (-0.000005 * (x - 500000)))
      Filter.atTop (nhds 0) := Real.tendsto_exp_atBot.comp hlin
  have hden : Filter.Tendsto (fun x : ℝ => 1 + Real.exp (-0.000005 * (x - 500000)))
      Filter.atTop (nhds 1) := by
    have h := Filter.Tendsto.const_add (1 : ℝ) hexp
    simpa using h
  have hin : Filter.Tendsto
      (fun x : ℝ => 1 / (1 + Real.exp (-0.000005 * (x - 500000))))
      Filter.atTop (nhds 1) := by
    have hc : Filter.Tendsto (fun _ : ℝ => (1 : ℝ)) Filter.atTop (nhds 1) :=
      tendsto_const_nhds
    have h := Filter.Tendsto.div hc hden one_ne_zero
    have h9 : (1 : ℝ) / 1 = 1 := by norm_num
    rw [h9] at h
    exact h
  have hfin : Filter.Tendsto
      (fun x : ℝ => 0.02 + 0.06 * (1 / (1 + Real.exp (-0.000005 * (x - 500000)))))
      Filter.atTop (nhds (0.02 + 0.06 * 1)) :=
    Filter.Tendsto.const_add _ (Filter.Tendsto.const_mul _ hin)
  have hfun : (fun x : ℝ =>
      0.02 + 0.06 * (1 / (1 + Real.exp (-0.000005 * (x - 500000)))))
      = calculateBuybackRate := by
    funext x
    rw [rate_eq]
  have h8 : (0.02 + 0.06 * 1 : ℝ) = 0.08 := by norm_num
  rw [hfun, h8] at hfin
  exact hfin

/-- The staking distribution never touches the claimable pool bucket. -/
theorem distributeStaking_poolReward (d T : ℚ) (p : PlayerState)
    (bots : List BotState) :
    (distributeStaking d T p bots).1.unclaimedPoolReward = p.unclaimedPoolReward := by
  unfold distributeStaking
  split_ifs <;> rfl

/-- The staking distribution never touches the redistribution bucket. -/
theorem distributeStaking_redistribution (d T : ℚ) (p : PlayerState)
    (bots : List BotState) :
    (distributeStaking d T p bots).1.unclaimedRedistribution
      = p.unclaimedRedistribution := by
  unfold distributeStaking
  split_ifs <;> rfl

/-- The player share booked by the staking distribution. -/
theorem distributeStaking_stakingReward (d T : ℚ) (p : PlayerState)
    (bots : List BotState) :
    (distributeStaking d T p bots).1.unclaimedStakingReward
      = p.unclaimedStakingReward + (if 0 < T then d * (p.stakedMeme / T) else 0) := by
  unfold distributeStaking
  split_ifs with h
  · rfl
  · ring

/-- Counterexample to claim C2: with a pool of 100 medals all invested by
the player, the pool payout formula yields the full daily reward 1000000,
but the code books only the net 900000 (payout minus the 10 percent tax)
into the unclaimedPoolReward bucket. -/
theorem pool_payout_counterexample :
    (advanceDay CONFIG (fun _ => 0) ⟨1, 0, 0, 0, 100, 0⟩ baseAmm
        { zeroPlayer with investedMedals := 100 } [] [] "").player.unclaimedPoolReward
      = 900000 ∧
    CONFIG.DAILY_MEME_REWARD * (100 / 100) = 1000000 ∧
    (900000 : ℚ) ≠ 1000000 := by
  refine ⟨?_, by norm_num [CONFIG], by norm_num⟩
  norm_num [advanceDay, settleBotRewards, execBotAction, distributeStaking,
    CONFIG, zeroPlayer, baseAmm]

/-- Claim C2 (amended): if medalsInPool is positive the payout formula is
DAILY_MEME_REWARD times the invested share, but only 90 percent of it (net
of the 10 percent tax) is booked: the player net payout accrues to
unclaimedPoolReward, each bot receives its net payout directly into liquid
meme at settlement, and the taxed bot total feeds the player
redistribution bucket in proportion to its wealth share; if medalsInPool
is 0 every agent receives zero pool reward and zero redistribution. -/
theorem pool_payout_amended (cfg : Config) (rate : ℚ → ℚ) (g : GlobalState)
    (amm : AMMState) (p : PlayerState) (bots : List BotState)
    (actions : List BotAction) (analysis : String) :
    ((advanceDay cfg rate g amm p bots actions analysis).player.unclaimedPoolReward
        = p.unclaimedPoolReward +
          0.9 * (if 0 < g.medalsInPool then
            cfg.DAILY_MEME_REWARD * (p.investedMedals / g.medalsInPool) else 0)) ∧
    ((advanceDay cfg rate g amm p bots actions analysis).player.unclaimedRedistribution
        = p.unclaimedRedistribution +
          (if 0 < g.medalsInPool then
            cfg.DAILY_MEME_REWARD *
              ((bots.map (fun b => if 0 < b.medals then b.medals else 0)).sum
                / g.medalsInPool) else 0) * 0.1 *
          (p.wealth /
            (if (advanceDay cfg rate g amm p bots actions analysis).log.totalWealth = 0
             then 1
             else (advanceDay cfg rate g amm p bots actions analysis).log.totalWealth))) ∧
    (∀ i : ℕ,
      ((settleBotRewards cfg g.medalsInPool bots)[i]?).map (fun b => b.meme)
        = (bots[i]?).map (fun b => b.meme +
            (if 0 < (bots.map (fun b2 => b2.medals)).sum then
              cfg.DAILY_MEME_REWARD * (b.medals / g.medalsInPool) * 0.9 else 0))) ∧
    (g.medalsInPool = 0 →
      (advanceDay cfg rate g amm p bots actions analysis).player.unclaimedPoolReward
          = p.unclaimedPoolReward ∧
      (advanceDay cfg rate g amm p bots actions analysis).player.unclaimedRedistribution
          = p.unclaimedRedistribution) := by
  have ha :
      (advanceDay cfg rate g amm p bots actions analysis).player.unclaimedPoolReward
        = p.unclaimedPoolReward +
          0.9 * (if 0 < g.medalsInPool then
            cfg.DAILY_MEME_REWARD * (p.investedMedals / g.medalsInPool) else 0) := by
    simp only [advanceDay, distributeStaking_poolReward]
    split_ifs <;> ring
  have hb :
      (advanceDay cfg rate g amm p bots actions analysis).player.unclaimedRedistribution
        = p.unclaimedRedistribution +
          (if 0 < g.medalsInPool then
            cfg.DAILY_MEME_REWARD *
              ((bots.map (fun b => if 0 < b.medals then b.medals else 0)).sum
                / g.medalsInPool) else 0) * 0.1 *
          (p.wealth /
            (if (advanceDay cfg rate g amm p bots actions analysis).log.totalWealth = 0
             then 1
             else (advanceDay cfg rate g amm p bots actions analysis).log.totalWealth)) := by
    simp only [advanceDay, distributeStaking_redistribution]
  refine ⟨ha, hb, ?_, ?_⟩
  · intro i
    simp only [settleBotRewards]
    split_ifs with hs
    · cases h : bots[i]? with
      | none => simp [List.getElem?_map, h]
      | some b => simp [List.getElem?_map, h]
    · cases h : bots[i]? with
      | none => simp [h]
      | some b => simp [h]
  · intro h
    constructor
    · rw [ha, h]
      norm_num
    · rw [hb, h]
      norm_num

/-- Witness for C2 at a concrete zero-pool state: with medalsInPool = 0
the day-step leaves both reward buckets unchanged. -/
theorem pool_payout_amended_witness :
    (advanceDay CONFIG (fun _ => 0) zeroGlobal baseAmm zeroPlayer [] []
        "").player.unclaimedPoolReward = zeroPlayer.unclaimedPoolReward ∧
    (advanceDay CONFIG (fun _ => 0) zeroGlobal baseAmm zeroPlayer [] []
        "").player.unclaimedRedistribution = zeroPlayer.unclaimedRedistribution :=
  (pool_payout_amended CONFIG (fun _ => 0) zeroGlobal baseAmm zeroPlayer [] []
    "").2.2.2 (by norm_num [zeroGlobal])

/-- Counterexample to claim C7: reservoir 1000 at buyback rate 1/20 (a
value inside the sigmoid band) buys 100/3 meme from the 100/100 pool, so
the dividend is 10/3; with the player and one bot each staking 100 of the
200 total, the claimed bot payout dividend times stake share is 5/3, but
the code credits the bot only 5/6, a share of the remainder after the
player share was removed. -/
theorem staking_dividend_counterexample :
    (advanceDay CONFIG (fun _ => 1/20) ⟨1, 1000, 0, 0, 0, 200⟩ ⟨100, 100, 1000⟩
        { zeroPlayer with stakedMeme := 100 } [{ zeroBot with stakedMeme := 100 }]
        [] "").log.buybackMemeAmount = 100/3 ∧
    ((advanceDay CONFIG (fun _ => 1/20) ⟨1, 1000, 0, 0, 0, 200⟩ ⟨100, 100, 1000⟩
        { zeroPlayer with stakedMeme := 100 } [{ zeroBot with stakedMeme := 100 }]
        [] "").bots.map (fun b => b.meme)) = [5/6] ∧
    (100/3 : ℚ) * 0.1 * (100/200) = 5/3 ∧
    (5/6 : ℚ) ≠ 5/3 := by
  refine ⟨?_, ?_, by norm_num, by norm_num⟩ <;>
    norm_num [advanceDay, settleBotRewards, execBotAction, distributeStaking,
      getAmountOut, CONFIG, zeroPlayer, zeroBot]

/-- Claim C7 (amended): the staking dividend is 10 percent of the buyback
meme amount, and when anything is staked the player books dividend times
its stake share into unclaimedStakingReward, while each bot with a
positive stake receives a share of the remainder (dividend minus the
player share) proportional to its stake, not a share of the full
dividend; with nothing staked the distribution is a no-op. -/
theorem staking_dividend_amended (cfg : Config) (rate : ℚ → ℚ) (g : GlobalState)
    (amm : AMMState) (p : PlayerState) (bots : List BotState)
    (actions : List BotAction) (analysis : String)
    (d T : ℚ) (q : PlayerState) (bs : List BotState) :
    ((advanceDay cfg rate g amm p bots actions analysis).player.unclaimedStakingReward
        = p.unclaimedStakingReward +
          (if 0 < (advanceDay cfg rate g amm p bots actions analysis).global.totalStakedMeme
           then ((advanceDay cfg rate g amm p bots actions analysis).log.buybackMemeAmount * 0.1)
              * (p.stakedMeme /
                 (advanceDay cfg rate g amm p bots actions analysis).global.totalStakedMeme)
           else 0)) ∧
    (∀ i : ℕ,
      ((distributeStaking d T q bs).2[i]?).map (fun b => b.meme)
        = (bs[i]?).map (fun b => b.meme +
            (if 0 < T ∧ 0 < d - d * (q.stakedMeme / T) ∧ 0 < b.stakedMeme
             then (d - d * (q.stakedMeme / T)) * (b.stakedMeme / T) else 0))) ∧
    (¬ 0 < T → distributeStaking d T q bs = (q, bs)) := by
  refine ⟨?_, ?_, ?_⟩
  · simp only [advanceDay, distributeStaking_stakingReward]
    split_ifs <;> ring
  · intro i
    simp only [distributeStaking]
    split_ifs with h1 h2
    · cases h : bs[i]? with
      | none => simp [List.getElem?_map, h]
      | some b =>
        by_cases hb : 0 < b.stakedMeme <;>
          simp [List.getElem?_map, h, h1, h2, hb]
    · cases h : bs[i]? with
      | none => simp [h]
      | some b => simp [h, h1, h2]
    · cases h : bs[i]? with
      | none => simp [h]
      | some b => simp [h, h1]
  · intro h
    simp only [distributeStaking]
    rw [if_neg h]

/-- Witness for C7: with nothing staked the staking distribution changes
neither the player nor the bots. -/
theorem staking_dividend_amended_witness :
    distributeStaking 5 0 zeroPlayer [] = (zeroPlayer, []) :=
  (staking_dividend_amended CONFIG (fun _ => 0) zeroGlobal baseAmm zeroPlayer
    [] [] "" 5 0 zeroPlayer []).2.2 (by norm_num)

/-- Sum of a mapped list after a set, in terms of the replaced element. -/
theorem sum_map_set (l : List BotState) (i : ℕ) (b : BotState)
    (f : BotState → ℚ) (hi : i < l.length) :
    ((l.set i b).map f).sum = (l.map f).sum - f (l.get ⟨i, hi⟩) + f b := by
  induction l generalizing i with
  | nil => simp at hi
  | cons hd tl ih =>
    cases i with
    | zero =>
      simp only [List.set, List.map, List.sum_cons, List.get]
      ring
    | succ n =>
      have hn : n < tl.length := by simpa using hi
      simp only [List.set, List.map, List.sum_cons, List.get]
      rw [ih n hn]
      ring

/-- Distributing a pointwise sum of two functions over a list sum. -/
theorem sum_map_add (l : List BotState) (f g : BotState → ℚ) :
    (l.map (fun b => f b + g b)).sum = (l.map f).sum + (l.map g).sum := by
  induction l with
  | nil => simp
  | cons hd tl ih =>
    simp only [List.map, List.sum_cons, ih]
    ring

/-- The craft branch never touches the meme balances. -/
theorem botCraft_conserve (cfg : Config) (a : BotAction) (b : BotState)
    (g : GlobalState) :
    (botCraft cfg a b g).1.meme = b.meme ∧
    (botCraft cfg a b g).1.stakedMeme = b.stakedMeme := by
  simp only [botCraft]
  split_ifs <;> exact ⟨rfl, rfl⟩

/-- The chest branch never touches the meme balances. -/
theorem botOpenChests_conserve (cfg : Config) (a : BotAction) (b : BotState)
    (g : GlobalState) :
    (botOpenChests cfg a b g).1.meme = b.meme ∧
    (botOpenChests cfg a b g).1.stakedMeme = b.stakedMeme := by
  simp only [botOpenChests]
  split_ifs <;> exact ⟨rfl, rfl⟩

/-- Unstaking moves between the two meme balances of one bot. -/
theorem botUnstake_conserve (a : BotAction) (b : BotState) (g : GlobalState) :
    (botUnstake a b g).1.meme + (botUnstake a b g).1.stakedMeme
      = b.meme + b.stakedMeme := by
  simp only [botUnstake]
  split_ifs
  · simp only
    ring
  · rfl

/-- Selling moves meme from the bot into the AMM reserve. -/
theorem botSell_conserve (a : BotAction) (b : BotState) (amm : AMMState) :
    (botSell a b amm).1.meme + (botSell a b amm).2.reserveMEME
        = b.meme + amm.reserveMEME ∧
    (botSell a b amm).1.stakedMeme = b.stakedMeme := by
  simp only [botSell]
  split_ifs <;> refine ⟨?_, rfl⟩
  · simp only
    ring
  · rfl
  · rfl

/-- Staking moves between the two meme balances of one bot. -/
theorem botStake_conserve (a : BotAction) (b : BotState) (g : GlobalState) :
    (botStake a b g).1.meme + (botStake a b g).1.stakedMeme
      = b.meme + b.stakedMeme := by
  simp only [botStake]
  split_ifs
  · simp only
    ring
  · rfl
  · rfl

/-- One iteration of the bot-execution loop conserves the sum of all bot
meme balances (liquid plus staked) and the AMM meme reserve exactly:
sells move meme into the reserve, stakes and unstakes move it between the
two balances, and nothing else touches meme. -/
theorem execBotAction_memeSum (cfg : Config) (s : LoopState) (a : BotAction) :
    loopMemeSum (execBotAction cfg s a) = loopMemeSum s := by
  simp only [execBotAction]
  cases hidx : s.bots.findIdx? (fun b => b.id = a.botId) with
  | none => rfl
  | some i =>
    cases hbi : s.bots[i]? with
    | none => simp [hbi]
    | some b0 =>
      have hi : i < s.bots.length := by
        by_contra hc
        push_neg at hc
        rw [List.getElem?_eq_none hc] at hbi
        cases hbi
      have hb0 : b0 = s.bots.get ⟨i, hi⟩ := by
        rw [List.getElem?_eq_getElem hi] at hbi
        exact (Option.some.injEq _ _ ▸ hbi : _ = b0).symm
      obtain ⟨hc1, hc2⟩ := botCraft_conserve cfg a b0 s.global
      obtain ⟨ho1, ho2⟩ := botOpenChests_conserve cfg a
        (botCraft cfg a b0 s.global).1 (botCraft cfg a b0 s.global).2
      have hu := botUnstake_conserve a
        (botOpenChests cfg a (botCraft cfg a b0 s.global).1 (botCraft cfg a b0 s.global).2).1
        (botOpenChests cfg a (botCraft cfg a b0 s.global).1 (botCraft cfg a b0 s.global).2).2
      obtain ⟨hs1, hs2⟩ := botSell_conserve a
        (botUnstake a
          (botOpenChests cfg a (botCraft cfg a b0 s.global).1 (botCraft cfg a b0 s.global).2).1
          (botOpenChests cfg a (botCraft cfg a b0 s.global).1 (botCraft cfg a b0 s.global).2).2).1
        s.amm
      have hk := botStake_conserve a
        (botSell a
          (botUnstake a
            (botOpenChests cfg a (botCraft cfg a b0 s.global).1 (botCraft cfg a b0 s.global).2).1
            (botOpenChests cfg a (botCraft cfg a b0 s.global).1 (botCraft cfg a b0 s.global).2).2).1
          s.amm).1
        (botUnstake a
          (botOpenChests cfg a (botCraft cfg a b0 s.global).1 (botCraft cfg a b0 s.global).2).1
          (botOpenChests cfg a (botCraft cfg a b0 s.global).1 (botCraft cfg a b0 s.global).2).2).2
      simp only [hbi, loopMemeSum]
      rw [sum_map_set s.bots i _ _ hi, ← hb0]
      linarith

/-- The whole bot-execution loop conserves the meme sum. -/
theorem foldl_execBotAction_memeSum (cfg : Config) (actions : List BotAction)
    (s : LoopState) :
    loopMemeSum (actions.foldl (execBotAction cfg) s) = loopMemeSum s := by
  induction actions generalizing s with
  | nil => rfl
  | cons a rest ih =>
    rw [List.foldl_cons, ih, execBotAction_memeSum]

/-- The morning bot settlement adds exactly the net pool rewards to the
bot meme sum. -/
theorem settleBotRewards_memeSum (cfg : Config) (T : ℚ) (bots : List BotState) :
    ((settleBotRewards cfg T bots).map (fun b => b.meme + b.stakedMeme)).sum
      = (bots.map (fun b => b.meme + b.stakedMeme)).sum
        + botsNetPoolReward cfg T bots := by
  simp only [settleBotRewards, botsNetPoolReward]
  split_ifs with h
  · rw [List.map_map]
    have hfun : ((fun b : BotState => b.meme + b.stakedMeme) ∘
        (fun b : BotState =>
          { b with
              meme := b.meme + cfg.DAILY_MEME_REWARD * (b.medals / T) * 0.9
              medals := 0 }))
        = fun b : BotState => (b.meme + b.stakedMeme) +
            cfg.DAILY_MEME_REWARD * (b.medals / T) * 0.9 := by
      funext b
      simp only [Function.comp]
      ring
    rw [hfun, sum_map_add]
  · simp

/-- The staking distribution leaves every stake (player and bot) as it
was. -/
theorem distributeStaking_stakes (d T : ℚ) (p : PlayerState)
    (bots : List BotState) :
    ((distributeStaking d T p bots).2).map (fun b => b.stakedMeme)
      = bots.map (fun b => b.stakedMeme) := by
  simp only [distributeStaking]
  split_ifs
  · rw [List.map_map]
    apply List.map_congr_left
    intro b _
    simp only [Function.comp]
    split_ifs <;> rfl
  · rfl
  · rfl

/-- The staking distribution does not touch the liquid or staked meme of
the player. -/
theorem distributeStaking_player_meme (d T : ℚ) (p : PlayerState)
    (bots : List BotState) :
    (distributeStaking d T p bots).1.meme = p.meme ∧
    (distributeStaking d T p bots).1.stakedMeme = p.stakedMeme := by
  simp only [distributeStaking]
  split_ifs <;> exact ⟨rfl, rfl⟩

/-- The credited dividend total only reads the stakes of the bots. -/
theorem dividendCredited_congr (d T pS : ℚ) (l1 l2 : List BotState)
    (h : l1.map (fun b => b.stakedMeme) = l2.map (fun b => b.stakedMeme)) :
    dividendCredited d T pS l1 = dividendCredited d T pS l2 := by
  simp only [dividendCredited]
  have hsum : ∀ l : List BotState, ∀ x : ℚ,
      (l.map (fun b => if 0 < b.stakedMeme then x * (b.stakedMeme / T) else 0)).sum
        = ((l.map (fun b => b.stakedMeme)).map
            (fun s => if 0 < s then x * (s / T) else 0)).sum := by
    intro l x
    rw [List.map_map]
    rfl
  split_ifs
  · rw [hsum l1, hsum l2, h]
  · rfl
  · rfl

/-- The staking distribution adds exactly the credited dividend to the
player bucket plus the bot meme sum. -/
theorem distributeStaking_memeSum (d T : ℚ) (p : PlayerState)
    (bots : List BotState) :
    (distributeStaking d T p bots).1.unclaimedStakingReward +
      (((distributeStaking d T p bots).2).map (fun b => b.meme + b.stakedMeme)).sum
      = p.unclaimedStakingReward
        + (bots.map (fun b => b.meme + b.stakedMeme)).sum
        + dividendCredited d T p.stakedMeme bots := by
  have hsum : ∀ (l : List BotState) (x : ℚ),
      ((l.map (fun b =>
          if 0 < b.stakedMeme then { b with meme := b.meme + x * (b.stakedMeme / T) }
          else b)).map (fun b => b.meme + b.stakedMeme)).sum
        = (l.map (fun b => b.meme + b.stakedMeme)).sum +
          (l.map (fun b => if 0 < b.stakedMeme then x * (b.stakedMeme / T) else 0)).sum := by
    intro l x
    induction l with
    | nil => simp
    | cons hd tl ih =>
      simp only [List.map_cons, List.sum_cons, ih]
      by_cases hc : 0 < hd.stakedMeme
      · simp only [if_pos hc]
        ring
      · simp only [if_neg hc]
        ring
  simp only [distributeStaking, dividendCredited]
  split_ifs with h1 h2
  · rw [hsum]
    ring
  · ring
  · ring

/-- The staking distribution does not touch the liquid meme of the
player. -/
theorem distributeStaking_meme (d T : ℚ) (p : PlayerState) (bots : List BotState) :
    (distributeStaking d T p bots).1.meme = p.meme := by
  simp only [distributeStaking]
  split_ifs <;> rfl

/-- The staking distribution does not touch the staked meme of the
player. -/
theorem distributeStaking_stakedMeme (d T : ℚ) (p : PlayerState)
    (bots : List BotState) :
    (distributeStaking d T p bots).1.stakedMeme = p.stakedMeme := by
  simp only [distributeStaking]
  split_ifs <;> rfl

/-- Sum of the two meme balances over a conditional stake credit. -/
theorem sum_credit (T : ℚ) (l : List BotState) (x : ℚ) :
    ((l.map (fun b =>
        if 0 < b.stakedMeme then { b with meme := b.meme + x * (b.stakedMeme / T) }
        else b)).map (fun b => b.meme + b.stakedMeme)).sum
      = (l.map (fun b => b.meme + b.stakedMeme)).sum +
        (l.map (fun b => if 0 < b.stakedMeme then x * (b.stakedMeme / T) else 0)).sum := by
  induction l with
  | nil => simp
  | cons hd tl ih =>
    simp only [List.map_cons, List.sum_cons, ih]
    by_cases hc : 0 < hd.stakedMeme
    · simp only [if_pos hc]
      ring
    · simp only [if_neg hc]
      ring

/-- The bot meme sum after the staking distribution, as the old sum plus
the conditionally credited bot dividends. -/
theorem distributeStaking_botsSum (d T : ℚ) (p : PlayerState)
    (bots : List BotState) :
    (((distributeStaking d T p bots).2).map (fun b => b.meme + b.stakedMeme)).sum
      = (bots.map (fun b => b.meme + b.stakedMeme)).sum +
        (if 0 < T then
          (if 0 < d - d * (p.stakedMeme / T) then
            (bots.map (fun b => if 0 < b.stakedMeme then
              (d - d * (p.stakedMeme / T)) * (b.stakedMeme / T) else 0)).sum
           else 0)
         else 0) := by
  simp only [distributeStaking]
  split_ifs with h1 h2
  · rw [sum_credit]
  · ring
  · ring

/-- The credited dividend total, split into the player share and the bot
share. -/
theorem dividendCredited_split (d T pS : ℚ) (bots : List BotState) :
    dividendCredited d T pS bots
      = (if 0 < T then d * (pS / T) else 0) +
        (if 0 < T then
          (if 0 < d - d * (pS / T) then
            (bots.map (fun b => if 0 < b.stakedMeme then
              (d - d * (pS / T)) * (b.stakedMeme / T) else 0)).sum
           else 0)
         else 0) := by
  simp only [dividendCredited]
  split_ifs <;> ring

/-- The credited dividend total over a post-distribution bot list equals
the one over the original list, since distribution preserves stakes. -/
theorem dividendCredited_distributeStaking (d T pS d2 T2 : ℚ) (q : PlayerState)
    (bots : List BotState) :
    dividendCredited d T pS ((distributeStaking d2 T2 q bots).2)
      = dividendCredited d T pS bots :=
  dividendCredited_congr d T pS _ _ (distributeStaking_stakes d2 T2 q bots)

/-- Claim C1 (amended): the day-step conserves the token supply (all agent
liquid, staked and unclaimed meme plus the AMM meme reserve) up to exactly
the effects the settlement performs: the pool-reward settlement MINTS new
meme (the net player payout into its bucket, the net bot payouts into
liquid balances, and the redistribution credit) which the original claim
does not allow for, and the buyback removes the full bought amount from
the reserve while re-injecting only the actually credited staking
dividend.  Bot sells, stakes and unstakes move meme between agents and
the reserve without changing the sum. -/
theorem conservation_amended (cfg : Config) (rate : ℚ → ℚ) (g : GlobalState)
    (amm : AMMState) (p : PlayerState) (bots : List BotState)
    (actions : List BotAction) (analysis : String) :
    memeSupply (advanceDay cfg rate g amm p bots actions analysis).player
        (advanceDay cfg rate g amm p bots actions analysis).bots
        (advanceDay cfg rate g amm p bots actions analysis).amm
      = memeSupply p bots amm
        + botsNetPoolReward cfg g.medalsInPool bots
        + ((advanceDay cfg rate g amm p bots actions analysis).player.unclaimedPoolReward
            - p.unclaimedPoolReward)
        + ((advanceDay cfg rate g amm p bots actions analysis).player.unclaimedRedistribution
            - p.unclaimedRedistribution)
        + dividendCredited
            ((advanceDay cfg rate g amm p bots actions analysis).log.buybackMemeAmount * 0.1)
            (advanceDay cfg rate g amm p bots actions analysis).global.totalStakedMeme
            p.stakedMeme
            (advanceDay cfg rate g amm p bots actions analysis).bots
        - (advanceDay cfg rate g amm p bots actions analysis).log.buybackMemeAmount := by
  simp only [advanceDay, memeSupply]
  set bots1 := settleBotRewards cfg g.medalsInPool bots with hb1
  set s1 := List.foldl (execBotAction cfg) ⟨g, amm, bots1, 0⟩ actions with hs1
  have h2 : (s1.bots.map (fun b => b.meme + b.stakedMeme)).sum + s1.amm.reserveMEME
      = (bots1.map (fun b => b.meme + b.stakedMeme)).sum + amm.reserveMEME := by
    have h := foldl_execBotAction_memeSum cfg actions ⟨g, amm, bots1, 0⟩
    rw [← hs1] at h
    simpa [loopMemeSum] using h
  have h3 := settleBotRewards_memeSum cfg g.medalsInPool bots
  rw [← hb1] at h3
  by_cases hbuy : 0 < s1.global.reservoirLvMON * rate s1.global.dailyNewWealth
  · simp only [if_pos hbuy, distributeStaking_poolReward,
      distributeStaking_redistribution, distributeStaking_meme,
      distributeStaking_stakedMeme, distributeStaking_stakingReward,
      distributeStaking_botsSum, dividendCredited_distributeStaking]
    simp only [dividendCredited_split]
    linarith
  · simp only [if_neg hbuy, distributeStaking_poolReward,
      distributeStaking_redistribution, distributeStaking_meme,
      distributeStaking_stakedMeme, distributeStaking_stakingReward,
      distributeStaking_botsSum, dividendCredited_distributeStaking]
    simp only [dividendCredited_split, zero_mul, mul_zero]
    linarith

/-- Counterexample to claim C1: from a state with an empty reservoir the
buyback and the dividend (the only deviations the claim allows) are both
zero, yet a pool of 100 medals all invested by the player makes the
day-step mint 900000 meme into the player bucket, so the summed token
supply grows instead of staying equal. -/
theorem conservation_counterexample :
    memeSupply (advanceDay CONFIG (fun _ => 0) ⟨1, 0, 0, 0, 100, 0⟩ baseAmm
        { zeroPlayer with investedMedals := 100 } [] [] "").player
      (advanceDay CONFIG (fun _ => 0) ⟨1, 0, 0, 0, 100, 0⟩ baseAmm
        { zeroPlayer with investedMedals := 100 } [] [] "").bots
      (advanceDay CONFIG (fun _ => 0) ⟨1, 0, 0, 0, 100, 0⟩ baseAmm
        { zeroPlayer with investedMedals := 100 } [] [] "").amm
      = memeSupply { zeroPlayer with investedMedals := 100 } [] baseAmm + 900000 ∧
    (advanceDay CONFIG (fun _ => 0) ⟨1, 0, 0, 0, 100, 0⟩ baseAmm
        { zeroPlayer with investedMedals := 100 } [] [] "").log.buybackMemeAmount = 0 ∧
    (900000 : ℚ) ≠ 0 := by
  refine ⟨?_, ?_, by norm_num⟩ <;>
    norm_num [advanceDay, memeSupply, settleBotRewards, execBotAction,
      distributeStaking, CONFIG, zeroPlayer, baseAmm]

/-- Two actions equal after erasing the medal draws agree on every other
field. -/
theorem scrubAction_fields (a1 a2 : BotAction)
    (h : scrubAction a1 = scrubAction a2) :
    a1.botId = a2.botId ∧ a1.craftCount = a2.craftCount ∧
    a1.openChests = a2.openChests ∧ a1.investMedals = a2.investMedals ∧
    a1.stakeMemePercent = a2.stakeMemePercent ∧
    a1.unstakeMemePercent = a2.unstakeMemePercent ∧
    a1.sellMemePercent = a2.sellMemePercent := by
  have h0 : BotAction.mk a1.botId a1.craftCount a1.openChests a1.investMedals
      a1.stakeMemePercent a1.unstakeMemePercent a1.sellMemePercent a1.rationale 0
      = BotAction.mk a2.botId a2.craftCount a2.openChests a2.investMedals
        a2.stakeMemePercent a2.unstakeMemePercent a2.sellMemePercent a2.rationale 0 := h
  injection h0 with i1 i2 i3 i4 i5 i6 i7 i8 i9
  exact ⟨i1, i2, i3, i4, i5, i6, i7⟩

/-- Two bots equal after erasing the held medals agree on every other
field. -/
theorem scrubBot_fields (b1 b2 : BotState) (h : scrubBot b1 = scrubBot b2) :
    b1.id = b2.id ∧ b1.lvMON = b2.lvMON ∧ b1.meme = b2.meme ∧
    b1.stakedMeme = b2.stakedMeme ∧ b1.wealth = b2.wealth ∧
    b1.chests = b2.chests ∧ b1.equipmentCount = b2.equipmentCount := by
  have h0 : BotState.mk b1.id b1.lvMON b1.meme b1.stakedMeme 0 b1.wealth
      b1.chests b1.equipmentCount
      = BotState.mk b2.id b2.lvMON b2.meme b2.stakedMeme 0 b2.wealth
        b2.chests b2.equipmentCount := h
  injection h0 with i1 i2 i3 i4 i5 i6 i7 i8
  exact ⟨i1, i2, i3, i4, i6, i7, i8⟩

/-- The craft branch commutes with medal erasure. -/
theorem botCraft_scrub (cfg : Config) (a1 a2 : BotAction) (b1 b2 : BotState)
    (g1 g2 : GlobalState) (ha : scrubAction a1 = scrubAction a2)
    (hb : scrubBot b1 = scrubBot b2) (hg : g1 = g2) :
    scrubBot (botCraft cfg a1 b1 g1).1 = scrubBot (botCraft cfg a2 b2 g2).1 ∧
    (botCraft cfg a1 b1 g1).2 = (botCraft cfg a2 b2 g2).2 := by
  subst hg
  obtain ⟨hid, hlv, hme, hst, hwe, hch, heq⟩ := scrubBot_fields b1 b2 hb
  obtain ⟨-, hcr, -, -, -, -, -⟩ := scrubAction_fields a1 a2 ha
  simp only [botCraft, hcr, hid, hlv, hme, hst, hwe, hch, heq]
  split_ifs
  · exact ⟨by simp [scrubBot], rfl⟩
  · exact ⟨hb, rfl⟩
  · exact ⟨hb, rfl⟩

/-- The chest branch commutes with medal erasure: the differing medal
draws land only in the erased medals field. -/
theorem botOpenChests_scrub (cfg : Config) (a1 a2 : BotAction) (b1 b2 : BotState)
    (g1 g2 : GlobalState) (ha : scrubAction a1 = scrubAction a2)
    (hb : scrubBot b1 = scrubBot b2) (hg : g1 = g2) :
    scrubBot (botOpenChests cfg a1 b1 g1).1 = scrubBot (botOpenChests cfg a2 b2 g2).1 ∧
    (botOpenChests cfg a1 b1 g1).2 = (botOpenChests cfg a2 b2 g2).2 := by
  subst hg
  obtain ⟨hid, hlv, hme, hst, hwe, hch, heq⟩ := scrubBot_fields b1 b2 hb
  obtain ⟨-, -, hop, -, -, -, -⟩ := scrubAction_fields a1 a2 ha
  simp only [botOpenChests, hop, hid, hlv, hme, hst, hwe, hch, heq]
  split_ifs
  · exact ⟨by simp [scrubBot], rfl⟩
  · exact ⟨hb, rfl⟩
  · exact ⟨hb, rfl⟩
  · exact ⟨hb, rfl⟩

/-- The unstake branch commutes with medal erasure. -/
theorem botUnstake_scrub (a1 a2 : BotAction) (b1 b2 : BotState)
    (g1 g2 : GlobalState) (ha : scrubAction a1 = scrubAction a2)
    (hb : scrubBot b1 = scrubBot b2) (hg : g1 = g2) :
    scrubBot (botUnstake a1 b1 g1).1 = scrubBot (botUnstake a2 b2 g2).1 ∧
    (botUnstake a1 b1 g1).2 = (botUnstake a2 b2 g2).2 := by
  subst hg
  obtain ⟨hid, hlv, hme, hst, hwe, hch, heq⟩ := scrubBot_fields b1 b2 hb
  obtain ⟨-, -, -, -, -, hun, -⟩ := scrubAction_fields a1 a2 ha
  simp only [botUnstake, hun, hid, hlv, hme, hst, hwe, hch, heq]
  split_ifs
  · exact ⟨by simp [scrubBot], rfl⟩
  · exact ⟨hb, rfl⟩

/-- The sell branch commutes with medal erasure. -/
theorem botSell_scrub (a1 a2 : BotAction) (b1 b2 : BotState)
    (amm1 amm2 : AMMState) (ha : scrubAction a1 = scrubAction a2)
    (hb : scrubBot b1 = scrubBot b2) (ham : amm1 = amm2) :
    scrubBot (botSell a1 b1 amm1).1 = scrubBot (botSell a2 b2 amm2).1 ∧
    (botSell a1 b1 amm1).2 = (botSell a2 b2 amm2).2 := by
  subst ham
  obtain ⟨hid, hlv, hme, hst, hwe, hch, heq⟩ := scrubBot_fields b1 b2 hb
  obtain ⟨-, -, -, -, -, -, hse⟩ := scrubAction_fields a1 a2 ha
  simp only [botSell, hse, hid, hlv, hme, hst, hwe, hch, heq]
  split_ifs
  · exact ⟨by simp [scrubBot], rfl⟩
  · exact ⟨hb, rfl⟩
  · exact ⟨hb, rfl⟩

/-- The stake branch commutes with medal erasure. -/
theorem botStake_scrub (a1 a2 : BotAction) (b1 b2 : BotState)
    (g1 g2 : GlobalState) (ha : scrubAction a1 = scrubAction a2)
    (hb : scrubBot b1 = scrubBot b2) (hg : g1 = g2) :
    scrubBot (botStake a1 b1 g1).1 = scrubBot (botStake a2 b2 g2).1 ∧
    (botStake a1 b1 g1).2 = (botStake a2 b2 g2).2 := by
  subst hg
  obtain ⟨hid, hlv, hme, hst, hwe, hch, heq⟩ := scrubBot_fields b1 b2 hb
  obtain ⟨-, -, -, -, hsk, -, -⟩ := scrubAction_fields a1 a2 ha
  simp only [botStake, hsk, hid, hlv, hme, hst, hwe, hch, heq]
  split_ifs
  · exact ⟨by simp [scrubBot], rfl⟩
  · exact ⟨hb, rfl⟩
  · exact ⟨hb, rfl⟩

/-- One loop iteration commutes with medal erasure: given equal global and
AMM parts, medal-erased-equal bot lists and medal-erased-equal actions,
the resulting global, AMM and medal-erased bot lists coincide. -/
theorem execBotAction_scrub (cfg : Config) (s1 s2 : LoopState)
    (a1 a2 : BotAction) (hg : s1.global = s2.global) (ham : s1.amm = s2.amm)
    (hbots : s1.bots.map scrubBot = s2.bots.map scrubBot)
    (ha : scrubAction a1 = scrubAction a2) :
    (execBotAction cfg s1 a1).global = (execBotAction cfg s2 a2).global ∧
    (execBotAction cfg s1 a1).amm = (execBotAction cfg s2 a2).amm ∧
    (execBotAction cfg s1 a1).bots.map scrubBot
      = (execBotAction cfg s2 a2).bots.map scrubBot := by
  obtain ⟨hbId, -, -, -, -, -, -⟩ := scrubAction_fields a1 a2 ha
  have hfind : s1.bots.findIdx? (fun b => b.id = a1.botId)
      = s2.bots.findIdx? (fun b => b.id = a2.botId) := by
    rw [hbId]
    have h1 : s1.bots.findIdx? (fun b => b.id = a2.botId)
        = (s1.bots.map scrubBot).findIdx? (fun b => b.id = a2.botId) := by
      rw [List.findIdx?_map]
      rfl
    have h2 : s2.bots.findIdx? (fun b => b.id = a2.botId)
        = (s2.bots.map scrubBot).findIdx? (fun b => b.id = a2.botId) := by
      rw [List.findIdx?_map]
      rfl
    rw [h1, h2, hbots]
  simp only [execBotAction, hfind]
  cases hidx : s2.bots.findIdx? (fun b => b.id = a2.botId) with
  | none => exact ⟨hg, ham, hbots⟩
  | some i =>
    have hgete : (s1.bots[i]?).map scrubBot = (s2.bots[i]?).map scrubBot := by
      rw [← List.getElem?_map, ← List.getElem?_map, hbots]
    cases h1 : s1.bots[i]? with
    | none =>
      cases h2 : s2.bots[i]? with
      | none =>
        simp only [h1, h2]
        exact ⟨hg, ham, hbots⟩
      | some b2 =>
        rw [h1, h2] at hgete
        simp at hgete
    | some b1 =>
      cases h2 : s2.bots[i]? with
      | none =>
        rw [h1, h2] at hgete
        simp at hgete
      | some b2 =>
        rw [h1, h2] at hgete
        simp only [Option.map_some'] at hgete
        have hb : scrubBot b1 = scrubBot b2 := Option.some.inj hgete
        simp only [h1, h2]
        obtain ⟨e1, e2⟩ := botCraft_scrub cfg a1 a2 b1 b2 s1.global s2.global ha hb hg
        obtain ⟨f1, f2⟩ := botOpenChests_scrub cfg a1 a2
          (botCraft cfg a1 b1 s1.global).1 (botCraft cfg a2 b2 s2.global).1
          (botCraft cfg a1 b1 s1.global).2 (botCraft cfg a2 b2 s2.global).2
          ha e1 e2
        obtain ⟨u1, u2⟩ := botUnstake_scrub a1 a2
          (botOpenChests cfg a1 (botCraft cfg a1 b1 s1.global).1 (botCraft cfg a1 b1 s1.global).2).1
          (botOpenChests cfg a2 (botCraft cfg a2 b2 s2.global).1 (botCraft cfg a2 b2 s2.global).2).1
          (botOpenChests cfg a1 (botCraft cfg a1 b1 s1.global).1 (botCraft cfg a1 b1 s1.global).2).2
          (botOpenChests cfg a2 (botCraft cfg a2 b2 s2.global).1 (botCraft cfg a2 b2 s2.global).2).2
          ha f1 f2
        obtain ⟨l1, l2⟩ := botSell_scrub a1 a2
          (botUnstake a1
            (botOpenChests cfg a1 (botCraft cfg a1 b1 s1.global).1 (botCraft cfg a1 b1 s1.global).2).1
            (botOpenChests cfg a1 (botCraft cfg a1 b1 s1.global).1 (botCraft cfg a1 b1 s1.global).2).2).1
          (botUnstake a2
            (botOpenChests cfg a2 (botCraft cfg a2 b2 s2.global).1 (botCraft cfg a2 b2 s2.global).2).1
            (botOpenChests cfg a2 (botCraft cfg a2 b2 s2.global).1 (botCraft cfg a2 b2 s2.global).2).2).1
          s1.amm s2.amm ha u1 ham
        obtain ⟨k1, k2⟩ := botStake_scrub a1 a2
          (botSell a1
            (botUnstake a1
              (botOpenChests cfg a1 (botCraft cfg a1 b1 s1.global).1 (botCraft cfg a1 b1 s1.global).2).1
              (botOpenChests cfg a1 (botCraft cfg a1 b1 s1.global).1 (botCraft cfg a1 b1 s1.global).2).2).1
            s1.amm).1
          (botSell a2
            (botUnstake a2
              (botOpenChests cfg a2 (botCraft cfg a2 b2 s2.global).1 (botCraft cfg a2 b2 s2.global).2).1
              (botOpenChests cfg a2 (botCraft cfg a2 b2 s2.global).1 (botCraft cfg a2 b2 s2.global).2).2).1
            s2.amm).1
          (botUnstake a1
            (botOpenChests cfg a1 (botCraft cfg a1 b1 s1.global).1 (botCraft cfg a1 b1 s1.global).2).1
            (botOpenChests cfg a1 (botCraft cfg a1 b1 s1.global).1 (botCraft cfg a1 b1 s1.global).2).2).2
          (botUnstake a2
            (botOpenChests cfg a2 (botCraft cfg a2 b2 s2.global).1 (botCraft cfg a2 b2 s2.global).2).1
            (botOpenChests cfg a2 (botCraft cfg a2 b2 s2.global).1 (botCraft cfg a2 b2 s2.global).2).2).2
          ha l1 u2
        refine ⟨k2, l2, ?_⟩
        rw [List.map_set, List.map_set, hbots, k1]

/-- The whole execution loop commutes with medal erasure. -/
theorem foldl_execBotAction_scrub (cfg : Config) (acts1 : List BotAction) :
    ∀ (acts2 : List BotAction), acts1.map scrubAction = acts2.map scrubAction →
    ∀ s1 s2 : LoopState, s1.global = s2.global → s1.amm = s2.amm →
      s1.bots.map scrubBot = s2.bots.map scrubBot →
      (acts1.foldl (execBotAction cfg) s1).global
          = (acts2.foldl (execBotAction cfg) s2).global ∧
      (acts1.foldl (execBotAction cfg) s1).amm
          = (acts2.foldl (execBotAction cfg) s2).amm ∧
      (acts1.foldl (execBotAction cfg) s1).bots.map scrubBot
          = (acts2.foldl (execBotAction cfg) s2).bots.map scrubBot := by
  induction acts1 with
  | nil =>
    intro acts2 h s1 s2 hg ham hb
    cases acts2 with
    | nil => exact ⟨hg, ham, hb⟩
    | cons a2 t2 => simp at h
  | cons a1 t1 ih =>
    intro acts2 h s1 s2 hg ham hb
    cases acts2 with
    | nil => simp at h
    | cons a2 t2 =>
      simp only [List.map_cons, List.cons.injEq] at h
      simp only [List.foldl_cons]
      obtain ⟨e1, e2, e3⟩ := execBotAction_scrub cfg s1 s2 a1 a2 hg ham hb h.1
      exact ih t2 h.2 _ _ e1 e2 e3

/-- Claim C8: determinism of the day-step log.  With the shuffled intent
batch as the seeded permutation input, two runs from the same state with
the same batch produce the same DailyLog, even if the per-chest medal
draws (randomness the permutation seed does not cover) differ: the log
depends only on the state and the medal-erased intent batch. -/
theorem daylog_determinism (cfg : Config) (rate : ℚ → ℚ) (g : GlobalState)
    (amm : AMMState) (p : PlayerState) (bots : List BotState)
    (acts1 acts2 : List BotAction) (analysis : String)
    (h : acts1.map scrubAction = acts2.map scrubAction) :
    (advanceDay cfg rate g amm p bots acts1 analysis).log
      = (advanceDay cfg rate g amm p bots acts2 analysis).log := by
  have hlen : acts1.length = acts2.length := by
    have h2 := congrArg List.length h
    simpa using h2
  obtain ⟨e1, e2, -⟩ := foldl_execBotAction_scrub cfg acts1 acts2 h
    ⟨g, amm, settleBotRewards cfg g.medalsInPool bots, 0⟩
    ⟨g, amm, settleBotRewards cfg g.medalsInPool bots, 0⟩ rfl rfl rfl
  simp only [advanceDay]
  rw [e1, e2, hlen]

/-- Witness for C8: two singleton batches that differ only in the medal
draw produce the same log. -/
theorem daylog_determinism_witness :
    (advanceDay CONFIG (fun _ => 0) zeroGlobal baseAmm zeroPlayer [zeroBot]
        [⟨0, 0, 0, true, 0, 0, 0, "", 7⟩] "").log
      = (advanceDay CONFIG (fun _ => 0) zeroGlobal baseAmm zeroPlayer [zeroBot]
        [⟨0, 0, 0, true, 0, 0, 0, "", 9⟩] "").log :=
  daylog_determinism CONFIG (fun _ => 0) zeroGlobal baseAmm zeroPlayer [zeroBot]
    [⟨0, 0, 0, true, 0, 0, 0, "", 7⟩] [⟨0, 0, 0, true, 0, 0, 0, "", 9⟩] ""
    (by simp [scrubAction])

/-- Witness for C6: the curve at input 0 sits strictly between the minimum
rate and 0.025. -/
theorem calculateBuybackRate_spec_witness :
    0.02 < calculateBuybackRate 0 ∧ calculateBuybackRate 0 < 0.025 :=
  calculateBuybackRate_spec.2.2.1
